import Mathlib

/-!
Verification of the PiControlCar signaling relay, negotiation logic and
binary frame codec, shallowly embedded from the TypeScript sources.
-/

namespace PiControlCar

/-! ## Binary frame codec (src/unnamed/part_000) -/

/-- Fixed packet size of the control frame. -/
def PKT_SIZE : ℕ := 16

/-- clamp01 from the codec: clamps a unit value to the interval [-1, 1]. -/
def clamp01 (v : ℚ) : ℚ := max (-1) (min 1 v)

/-- JavaScript bitwise-or-zero truncation toward zero, for values in
the 32-bit range the codec uses. -/
def jsTrunc (q : ℚ) : ℤ := if 0 ≤ q then ⌊q⌋ else ⌈q⌉

/-- toI16_1000 from the codec: clamp to [-1,1], scale by 1000 and truncate
toward zero. -/
def toI16_1000 (v : ℚ) : ℤ := jsTrunc (clamp01 v * 1000)

/-- Big-endian byte quadruple written by DataView.setUint32. -/
def u32BE (n : ℕ) : List ℕ :=
  [n / 2 ^ 24 % 2 ^ 8, n / 2 ^ 16 % 2 ^ 8, n / 2 ^ 8 % 2 ^ 8, n % 2 ^ 8]

/-- Big-endian byte pair written by DataView.setInt16 (twos-complement). -/
def i16BE (i : ℤ) : List ℕ :=
  [(i % 65536).toNat / 2 ^ 8, (i % 65536).toNat % 2 ^ 8]

/-- Big-endian byte pair written by DataView.setUint16. -/
def u16BE (n : ℕ) : List ℕ := [n / 2 ^ 8 % 2 ^ 8, n % 2 ^ 8]

/-- packFrameBE from the codec: the 16-byte big-endian control frame.
The timestamp sampled from the clock inside the source function is passed
as the explicit argument ts. -/
def packFrameBE (seq ts : ℕ) (throttle steering : ℚ)
    (buttons flags : ℕ) : List ℕ :=
  u32BE seq ++ u32BE ts ++
    i16BE (toI16_1000 throttle) ++ i16BE (toI16_1000 steering) ++
    u16BE (buttons % 2 ^ 16) ++ [flags % 2 ^ 8, 0]

/-- A decoded control frame. -/
structure Frame where
  seq : ℕ
  ts : ℕ
  throttle : ℚ
  steering : ℚ
  buttons : ℕ
  flags : ℕ
  deriving DecidableEq, Repr

/-- Big-endian read of an unsigned 32-bit quantity. -/
def readU32 (b0 b1 b2 b3 : ℕ) : ℕ := ((b0 * 256 + b1) * 256 + b2) * 256 + b3

/-- Big-endian read of a signed 16-bit quantity (twos-complement). -/
def readI16 (hi lo : ℕ) : ℤ :=
  let n := hi * 256 + lo
  if n < 2 ^ 15 then (n : ℤ) else (n : ℤ) - 2 ^ 16

/-- Modelled from the spec: the inverse of the frame encoder. The repository
sources under src contain only the encoder (packFrameBE); the spec describes
the codec as an encode/decode pair with the fixed big-endian field layout of
section 3, so the decoder is written here directly from that layout: a
16-byte frame parses into sequence, timestamp, fixed-point throttle and
steering divided back by 1000, button mask and flags; any other length is
rejected. -/
def decodeFrameBE (bytes : List ℕ) : Option Frame :=
  match bytes with
  | [b0, b1, b2, b3, t0, t1, t2, t3, h0, h1, s0, s1, u0, u1, fl, _r] =>
    some { seq := readU32 b0 b1 b2 b3
           ts := readU32 t0 t1 t2 t3
           throttle := (readI16 h0 h1 : ℚ) / 1000
           steering := (readI16 s0 s1 : ℚ) / 1000
           buttons := u0 * 256 + u1
           flags := fl }
  | _ => none

/-! ## Rendezvous coordinator
(src/server/dist/index.js and the server sources in src/unnamed/part_001) -/

/-- Messages the server emits to clients. -/
inductive SMsg
  | roomRole (initiator polite : Bool)
  | roomFull
  | peerReady
  | peerLeft
  deriving DecidableEq, Repr

/-- The in-memory room map roomIdToSockets: room id to the insertion-ordered
socket-id set. -/
abbrev Rooms := List (String × List String)

/-- JavaScript Set.add: appends unless already present, keeping insertion
order. -/
def setAdd (l : List String) (x : String) : List String :=
  if x ∈ l then l else l ++ [x]

/-- Store a new member set for a room id: the JS Set object is mutated in
place inside the map, so every entry carrying this id now holds the new
set. -/
def setRoom (rooms : Rooms) (roomId : String) (members : List String) :
    Rooms :=
  rooms.map fun p => if p.1 = roomId then (roomId, members) else p

/-- Map.delete for the room map. -/
def removeRoom (rooms : Rooms) (roomId : String) : Rooms :=
  rooms.filter fun p => p.1 ≠ roomId

/-- getOrCreateRoom: the (possibly extended) map together with the set
stored for the id. -/
def getOrCreateRoom (rooms : Rooms) (roomId : String) :
    Rooms × List String :=
  match rooms.lookup roomId with
  | some s => (rooms, s)
  | none => (rooms ++ [(roomId, [])], [])

/-- The room:join socket handler. joinedRoom is the per-socket variable of
the same name; the result is the updated map, the updated joinedRoom, and
the emitted messages as target-message pairs, in emission order. The
peer:ready broadcast to the socket.io room reaches exactly the current
members. -/
def roomJoin (rooms : Rooms) (joinedRoom : Option String)
    (sid roomId : String) : Rooms × Option String × List (String × SMsg) :=
  let res := getOrCreateRoom rooms roomId
  let rooms0 := res.1
  let room := res.2
  if 2 ≤ room.length then
    (rooms0, joinedRoom, [(sid, SMsg.roomFull)])
  else
    let room1 := setAdd room sid
    let rooms1 := setRoom rooms0 roomId room1
    let msgs :=
      match room1 with
      | [a] => [(a, SMsg.roomRole true false)]
      | [a, b] =>
          [(a, SMsg.roomRole true false), (b, SMsg.roomRole false true),
           (a, SMsg.peerReady), (b, SMsg.peerReady)]
      | _ => []
    (rooms1, some roomId, msgs)

/-- The disconnect socket handler: remove the socket from its joined room,
delete the room when it empties, otherwise notify the remaining members
with peer:left. -/
def onDisconnect (rooms : Rooms) (joinedRoom : Option String)
    (sid : String) : Rooms × List (String × SMsg) :=
  match joinedRoom with
  | none => (rooms, [])
  | some r =>
    match rooms.lookup r with
    | none => (rooms, [])
    | some members =>
      let others := members.erase sid
      if others.length = 0 then
        (removeRoom rooms r, [])
      else
        (setRoom rooms r others, others.map fun m => (m, SMsg.peerLeft))

/-! ## Client negotiation state machine (src/client/src/lib/webrtc.ts) -/

/-- RTCPeerConnection signaling states the controller distinguishes. -/
inductive SigState
  | stable
  | haveLocalOffer
  | haveRemoteOffer
  deriving DecidableEq, Repr

/-- RTCDataChannel readyState. -/
inductive DCState
  | connecting
  | dcOpen
  | closing
  | dcClosed
  deriving DecidableEq, Repr

/-- The per-session mutable fields of WebRtcController relevant to
negotiation, plus the enableMedia option. -/
structure Session where
  makingOffer : Bool
  ignoreOffer : Bool
  polite : Bool
  initiator : Bool
  isClosed : Bool
  hasLocalStream : Bool
  enableMedia : Bool
  sigState : SigState
  dataChannel : Option DCState
  deriving DecidableEq, Repr

/-- Observable effects of a negotiation step: calls into the peer
connection and messages sent on the relay link. -/
inductive Action
  | setRemoteDesc
  | createOffer
  | createAnswer
  | setLocalDesc
  | sendOffer
  | sendAnswer
  | addIceCandidate
  | getUserMedia
  | addTrack
  | createDataChannel
  | dcSend
  | negotiateTriggered
  deriving DecidableEq, Repr

/-- ensureLocalStream: acquire local media once per session; a no-op when a
stream exists, when the session is closed, or in data-channel-only mode.
The closed re-checks after the media await collapse here because a run of
the body is modelled without an interleaved close. -/
def ensureLocalStream (s : Session) : Session × List Action :=
  if s.hasLocalStream || s.isClosed then (s, [])
  else if s.enableMedia = false then (s, [])
  else ({ s with hasLocalStream := true }, [Action.getUserMedia, Action.addTrack])

/-- negotiate: produce and send an offer. The try/finally of the source
clears makingOffer on every exit path, including the early closed return. -/
def negotiate (s : Session) : Session × List Action :=
  if s.isClosed then ({ s with makingOffer := false }, [])
  else
    let s1 := { s with makingOffer := true }
    let res := ensureLocalStream s1
    let s2 := res.1
    if s2.isClosed then ({ s2 with makingOffer := false }, res.2)
    else
      ({ s2 with makingOffer := false, sigState := SigState.haveLocalOffer },
        res.2 ++ [Action.createOffer, Action.setLocalDesc, Action.sendOffer])

/-- The session state inside the accepted branch of the offer handler,
after the polite store, the glare bookkeeping and the remote-description
apply. -/
def afterRemote (s : Session) (p : Bool) : Session :=
  { s with polite := p, ignoreOffer := false,
           sigState := SigState.haveRemoteOffer }

/-- The signal:offer handler: store the relayed polite flag, detect glare,
either drop the offer (ignoreOffer) or apply it and answer. -/
def onOffer (s : Session) (polite : Bool) : Session × List Action :=
  let s0 := { s with polite := polite }
  let offerCollision := s0.makingOffer || s0.sigState != SigState.stable
  let s1 := { s0 with ignoreOffer := !polite && offerCollision }
  if s1.ignoreOffer then (s1, [])
  else
    let s2 := { s1 with sigState := SigState.haveRemoteOffer }
    let res := ensureLocalStream s2
    ({ res.1 with sigState := SigState.stable },
      Action.setRemoteDesc :: res.2 ++
        [Action.createAnswer, Action.setLocalDesc, Action.sendAnswer])

/-- The signal:answer handler: apply the answer only while a local offer is
pending. -/
def onAnswer (s : Session) : Session × List Action :=
  if s.sigState = SigState.haveLocalOffer then
    ({ s with sigState := SigState.stable }, [Action.setRemoteDesc])
  else (s, [])

/-- The signal:candidate handler. addOk is whether the addIceCandidate call
of the transport succeeds; the third component is whether the caught
failure is re-thrown (it is swallowed when ignoreOffer is set). -/
def onCandidate (s : Session) (addOk : Bool) :
    Session × List Action × Bool :=
  if addOk then (s, [Action.addIceCandidate], false)
  else if s.ignoreOffer then (s, [Action.addIceCandidate], false)
  else (s, [Action.addIceCandidate], true)

/-- sendData: send a frame on the data channel, reporting success as a
Boolean; on failure, an initiator session that is not closed recreates a
missing or terminally closed channel and fires renegotiation before
reporting the failure. -/
def sendData (s : Session) : Session × Bool × List Action :=
  match s.dataChannel with
  | some DCState.dcOpen => (s, true, [Action.dcSend])
  | dc =>
    if !s.isClosed && s.initiator then
      if dc = none ∨ dc = some DCState.dcClosed then
        ({ s with dataChannel := some DCState.connecting }, false,
          [Action.createDataChannel, Action.negotiateTriggered])
      else (s, false, [])
    else (s, false, [])

/-! ### Codec lemmas -/

lemma u32BE_readU32 (n : ℕ) (h : n < 2 ^ 32) :
    readU32 (n / 2 ^ 24 % 2 ^ 8) (n / 2 ^ 16 % 2 ^ 8) (n / 2 ^ 8 % 2 ^ 8)
      (n % 2 ^ 8) = n := by
  unfold readU32
  omega

lemma i16BE_readI16 (i : ℤ) (hlo : -(2 ^ 15) ≤ i) (hhi : i < 2 ^ 15) :
    readI16 ((i % 65536).toNat / 2 ^ 8) ((i % 65536).toNat % 2 ^ 8) = i := by
  unfold readI16
  simp only []
  split <;> omega

lemma clamp01_eq_self {t : ℚ} (h1 : -1 ≤ t) (h2 : t ≤ 1) : clamp01 t = t := by
  unfold clamp01
  rw [min_eq_right h2, max_eq_right h1]

lemma jsTrunc_bounds {q : ℚ} {B : ℤ} (hB : 0 ≤ B) (h1 : -(B : ℚ) ≤ q)
    (h2 : q ≤ (B : ℚ)) : -B ≤ jsTrunc q ∧ jsTrunc q ≤ B := by
  unfold jsTrunc
  split
  · rename_i hq
    refine ⟨?_, ?_⟩
    · have h0 : (0 : ℤ) ≤ ⌊q⌋ := Int.floor_nonneg.mpr hq
      omega
    · have hle : (⌊q⌋ : ℚ) ≤ (B : ℚ) := le_trans (Int.floor_le q) h2
      exact_mod_cast hle
  · rename_i hq
    refine ⟨?_, ?_⟩
    · have hle : ((-B : ℤ) : ℚ) ≤ (⌈q⌉ : ℚ) := by
        push_cast
        exact le_trans h1 (Int.le_ceil q)
      exact_mod_cast hle
    · have h0 : ⌈q⌉ ≤ (0 : ℤ) := Int.ceil_le.mpr (by push_cast; linarith)
      omega

lemma jsTrunc_close (q : ℚ) : |q - (jsTrunc q : ℚ)| ≤ 1 := by
  unfold jsTrunc
  rw [abs_le]
  split
  · have hf1 := Int.floor_le q
    have hf2 := Int.lt_floor_add_one q
    constructor <;> linarith
  · have hc1 := Int.le_ceil q
    have hc2 := Int.ceil_lt_add_one q
    constructor <;> linarith

lemma toI16_1000_close {t : ℚ} (h1 : -1 ≤ t) (h2 : t ≤ 1) :
    |t - (toI16_1000 t : ℚ) / 1000| ≤ 1 / 1000 := by
  unfold toI16_1000
  rw [clamp01_eq_self h1 h2]
  have h := jsTrunc_close (t * 1000)
  rw [abs_le] at h ⊢
  constructor <;> [linarith [h.1]; linarith [h.2]]

lemma toI16_1000_mem {t : ℚ} (h1 : -1 ≤ t) (h2 : t ≤ 1) :
    -1000 ≤ toI16_1000 t ∧ toI16_1000 t ≤ 1000 := by
  unfold toI16_1000
  rw [clamp01_eq_self h1 h2]
  have := jsTrunc_bounds (q := t * 1000) (B := 1000) (by norm_num)
    (by push_cast; linarith) (by push_cast; linarith)
  exact this

lemma clamp01_mem (v : ℚ) : -1 ≤ clamp01 v ∧ clamp01 v ≤ 1 := by
  unfold clamp01
  constructor
  · exact le_max_left _ _
  · exact max_le (by norm_num) (min_le_left _ _)

lemma toI16_1000_mem_all (v : ℚ) :
    -1000 ≤ toI16_1000 v ∧ toI16_1000 v ≤ 1000 := by
  unfold toI16_1000
  obtain ⟨hl, hr⟩ := clamp01_mem v
  exact jsTrunc_bounds (q := clamp01 v * 1000) (B := 1000) (by norm_num)
    (by push_cast; linarith) (by push_cast; linarith)

lemma packFrameBE_length (seq ts : ℕ) (t s : ℚ) (b f : ℕ) :
    (packFrameBE seq ts t s b f).length = PKT_SIZE := by
  simp [packFrameBE, u32BE, i16BE, u16BE, PKT_SIZE]

lemma decode_packFrameBE (seq ts : ℕ) (t s : ℚ) (b f : ℕ) :
    decodeFrameBE (packFrameBE seq ts t s b f) =
      some { seq := readU32 (seq / 2 ^ 24 % 2 ^ 8) (seq / 2 ^ 16 % 2 ^ 8)
               (seq / 2 ^ 8 % 2 ^ 8) (seq % 2 ^ 8)
             ts := readU32 (ts / 2 ^ 24 % 2 ^ 8) (ts / 2 ^ 16 % 2 ^ 8)
               (ts / 2 ^ 8 % 2 ^ 8) (ts % 2 ^ 8)
             throttle := (readI16 ((toI16_1000 t % 65536).toNat / 2 ^ 8)
               ((toI16_1000 t % 65536).toNat % 2 ^ 8) : ℚ) / 1000
             steering := (readI16 ((toI16_1000 s % 65536).toNat / 2 ^ 8)
               ((toI16_1000 s % 65536).toNat % 2 ^ 8) : ℚ) / 1000
             buttons := b % 2 ^ 16 / 2 ^ 8 % 2 ^ 8 * 256 + b % 2 ^ 16 % 2 ^ 8
             flags := f % 2 ^ 8 } := rfl

/-- C9: the frame codec is an encode/decode pair: encode always produces
exactly 16 bytes with no error case, clamps throttle and steering to [-1,1]
before scaling to a signed integer in [-1000,1000], truncates button bits
beyond 16; and decoding an encoded frame reproduces the sequence number,
the masked buttons and flags exactly, and throttle and steering within a
1/1000 quantization unit, for all throttle and steering in [-1,1] and all
sequence numbers below 2 to the 32. -/
theorem frame_codec_roundtrip (seq ts buttons flags : ℕ) (t s : ℚ)
    (hseq : seq < 2 ^ 32) (ht1 : -1 ≤ t) (ht2 : t ≤ 1)
    (hs1 : -1 ≤ s) (hs2 : s ≤ 1) :
    (∀ (q r : ℕ) (a b : ℚ) (c d : ℕ),
      (packFrameBE q r a b c d).length = PKT_SIZE) ∧
    (∀ v : ℚ, -1000 ≤ toI16_1000 v ∧ toI16_1000 v ≤ 1000) ∧
    ∃ fr : Frame,
      decodeFrameBE (packFrameBE seq ts t s buttons flags) = some fr ∧
      fr.seq = seq ∧ fr.buttons = buttons % 2 ^ 16 ∧ fr.flags = flags % 2 ^ 8 ∧
      |t - fr.throttle| ≤ 1 / 1000 ∧ |s - fr.steering| ≤ 1 / 1000 := by
  obtain ⟨hmt1, hmt2⟩ := toI16_1000_mem ht1 ht2
  obtain ⟨hms1, hms2⟩ := toI16_1000_mem hs1 hs2
  refine ⟨packFrameBE_length, toI16_1000_mem_all, _, decode_packFrameBE _ _ _ _ _ _,
    u32BE_readU32 seq hseq, ?_, rfl, ?_, ?_⟩
  · show buttons % 2 ^ 16 / 2 ^ 8 % 2 ^ 8 * 256 + buttons % 2 ^ 16 % 2 ^ 8 =
      buttons % 2 ^ 16
    omega
  · show |t - (readI16 ((toI16_1000 t % 65536).toNat / 2 ^ 8)
      ((toI16_1000 t % 65536).toNat % 2 ^ 8) : ℚ) / 1000| ≤ 1 / 1000
    rw [i16BE_readI16 (toI16_1000 t) (by omega) (by omega)]
    exact toI16_1000_close ht1 ht2
  · show |s - (readI16 ((toI16_1000 s % 65536).toNat / 2 ^ 8)
      ((toI16_1000 s % 65536).toNat % 2 ^ 8) : ℚ) / 1000| ≤ 1 / 1000
    rw [i16BE_readI16 (toI16_1000 s) (by omega) (by omega)]
    exact toI16_1000_close hs1 hs2

/-! ### Coordinator lemmas -/

lemma lookup_append_self (l : Rooms) (k : String) (v : List String)
    (h : l.lookup k = none) : (l ++ [(k, v)]).lookup k = some v := by
  induction l with
  | nil => simp [List.lookup]
  | cons p tl ih =>
    obtain ⟨pk, pv⟩ := p
    simp only [List.cons_append, List.lookup] at h ⊢
    cases hpk : (k == pk) with
    | true =>
      rw [hpk] at h
      exact Option.noConfusion h
    | false =>
      rw [hpk] at h
      exact ih h

lemma lookup_setRoom_self (l : Rooms) (k : String) (m : List String)
    {v : List String} (h : l.lookup k = some v) :
    (setRoom l k m).lookup k = some m := by
  induction l with
  | nil => simp [List.lookup] at h
  | cons p tl ih =>
    obtain ⟨pk, pv⟩ := p
    by_cases hpk : pk = k
    · subst hpk
      have hstep : setRoom ((pk, pv) :: tl) pk m = (pk, m) :: setRoom tl pk m := by
        simp [setRoom]
      rw [hstep]
      simp [List.lookup]
    · have hstep : setRoom ((pk, pv) :: tl) k m = (pk, pv) :: setRoom tl k m := by
        simp [setRoom, hpk]
      rw [hstep]
      have hbeq : (k == pk) = false :=
        beq_eq_false_iff_ne.mpr fun hh => hpk hh.symm
      have hh : List.lookup k ((pk, pv) :: tl) = List.lookup k tl := by
        simp [List.lookup, hbeq]
      rw [hh] at h
      have hgoal : List.lookup k ((pk, pv) :: setRoom tl k m) =
          List.lookup k (setRoom tl k m) := by
        simp [List.lookup, hbeq]
      rw [hgoal]
      exact ih h

lemma lookup_removeRoom (l : Rooms) (k : String) :
    (removeRoom l k).lookup k = none := by
  induction l with
  | nil => rfl
  | cons p tl ih =>
    obtain ⟨pk, pv⟩ := p
    simp only [removeRoom] at ih ⊢
    rw [List.filter_cons]
    by_cases hpk : pk = k
    · subst hpk
      simpa using ih
    · have hbeq : (k == pk) = false :=
        beq_eq_false_iff_ne.mpr fun hh => hpk hh.symm
      simp only [ne_eq, hpk, not_false_iff, decide_true_eq_true, if_true]
      simp only [List.lookup, hbeq]
      exact ih

/-- C2: joins into an initially absent room: the first joiner gets the
initiator non-polite role, a second joiner while the first is present gets
the non-initiator polite role with peer:ready broadcast to both, and any
further join is answered room:full with the map unchanged. -/
theorem room_join_sequence (rooms : Rooms) (roomId a b c : String)
    (jc : Option String) (hempty : rooms.lookup roomId = none)
    (hab : a ≠ b) :
    ∃ rooms1 rooms2 : Rooms,
      roomJoin rooms none a roomId =
        (rooms1, some roomId, [(a, SMsg.roomRole true false)]) ∧
      rooms1.lookup roomId = some [a] ∧
      roomJoin rooms1 none b roomId =
        (rooms2, some roomId,
          [(a, SMsg.roomRole true false), (b, SMsg.roomRole false true),
           (a, SMsg.peerReady), (b, SMsg.peerReady)]) ∧
      rooms2.lookup roomId = some [a, b] ∧
      roomJoin rooms2 jc c roomId = (rooms2, jc, [(c, SMsg.roomFull)]) := by
  have hl0 : (rooms ++ [(roomId, [])]).lookup roomId = some [] :=
    lookup_append_self rooms roomId [] hempty
  have hl1 : (setRoom (rooms ++ [(roomId, [])]) roomId [a]).lookup roomId =
      some [a] := lookup_setRoom_self _ _ _ hl0
  have hl2 : (setRoom (setRoom (rooms ++ [(roomId, [])]) roomId [a]) roomId
      [a, b]).lookup roomId = some [a, b] := lookup_setRoom_self _ _ _ hl1
  refine ⟨setRoom (rooms ++ [(roomId, [])]) roomId [a],
    setRoom (setRoom (rooms ++ [(roomId, [])]) roomId [a]) roomId [a, b],
    ?_, hl1, ?_, hl2, ?_⟩
  · simp [roomJoin, getOrCreateRoom, hempty, setAdd]
  · have hba : b ≠ a := fun hh => hab hh.symm
    simp [roomJoin, getOrCreateRoom, hl1, setAdd, hba]
  · simp [roomJoin, getOrCreateRoom, hl2]

/-- Witness for C2 on a concrete three-join run. -/
theorem room_join_sequence_witness :
    (([] : Rooms).lookup "r1" = none ∧ "a" ≠ "b") ∧
    ∃ rooms1 rooms2 : Rooms,
      roomJoin [] none "a" "r1" =
        (rooms1, some "r1", [("a", SMsg.roomRole true false)]) ∧
      rooms1.lookup "r1" = some ["a"] ∧
      roomJoin rooms1 none "b" "r1" =
        (rooms2, some "r1",
          [("a", SMsg.roomRole true false), ("b", SMsg.roomRole false true),
           ("a", SMsg.peerReady), ("b", SMsg.peerReady)]) ∧
      rooms2.lookup "r1" = some ["a", "b"] ∧
      roomJoin rooms2 (some "z") "c" "r1" =
        (rooms2, some "z", [("c", SMsg.roomFull)]) :=
  ⟨⟨rfl, by decide⟩,
    room_join_sequence [] "r1" "a" "b" "c" (some "z") rfl (by decide)⟩

lemma count_pair_map_of_nodup (l : List String) (tag : SMsg) (m : String)
    (hnd : l.Nodup) (hm : m ∈ l) :
    ((l.map fun x => (x, tag)).count (m, tag)) = 1 := by
  induction l with
  | nil => simp at hm
  | cons a tl ih =>
    obtain ⟨hna, hnd2⟩ := List.nodup_cons.mp hnd
    simp only [List.map_cons, List.count_cons]
    rcases List.mem_cons.mp hm with h | h
    · subst h
      have hzero : ((tl.map fun x => (x, tag)).count (m, tag)) = 0 := by
        rw [List.count_eq_zero]
        intro hc
        obtain ⟨y, hy, hyeq⟩ := List.mem_map.mp hc
        obtain ⟨rfl, -⟩ := Prod.mk.injEq .. ▸ hyeq
        exact hna hy
      simp [hzero]
    · have hma : m ≠ a := fun hh => hna (hh ▸ h)
      have hbf : ((a, tag) == (m, tag)) = false := by
        simp [Prod.ext_iff]
        intro hc
        exact absurd hc.symm hma
      rw [ih hnd2 h, hbf]
      simp

/-- C3: when the second member joins, the server re-sends the first member
its initiator non-polite role, in addition to assigning the second the
non-initiator polite role. -/
theorem second_join_resends_first_role (rooms : Rooms) (roomId a b : String)
    (j : Option String) (h : rooms.lookup roomId = some [a]) (hba : b ≠ a) :
    (roomJoin rooms j b roomId).2.2 =
      [(a, SMsg.roomRole true false), (b, SMsg.roomRole false true),
       (a, SMsg.peerReady), (b, SMsg.peerReady)] ∧
    (a, SMsg.roomRole true false) ∈ (roomJoin rooms j b roomId).2.2 := by
  refine ⟨?_, ?_⟩ <;> simp [roomJoin, getOrCreateRoom, h, setAdd, hba]

/-- Witness for C3 on a concrete one-member room. -/
theorem second_join_resends_first_role_witness :
    (([("r1", ["a"])] : Rooms).lookup "r1" = some ["a"] ∧ "b" ≠ "a") ∧
    (roomJoin [("r1", ["a"])] none "b" "r1").2.2 =
      [("a", SMsg.roomRole true false), ("b", SMsg.roomRole false true),
       ("a", SMsg.peerReady), ("b", SMsg.peerReady)] :=
  ⟨⟨rfl, by decide⟩,
    (second_join_resends_first_role [("r1", ["a"])] "r1" "a" "b" none rfl
      (by decide)).1⟩

/-- C10: a room:join from a socket that is already a member: at two members
the size guard answers room:full even to an existing member and changes
nothing; from the sole member the join is idempotent on membership, the
initiator non-polite role is re-emitted, and no peer:ready is sent. -/
theorem rejoin_idempotent (rooms : Rooms) (roomId sid : String)
    (j : Option String) :
    (∀ u w : String, rooms.lookup roomId = some [u, w] → sid ∈ [u, w] →
      roomJoin rooms j sid roomId = (rooms, j, [(sid, SMsg.roomFull)])) ∧
    (rooms.lookup roomId = some [sid] →
      roomJoin rooms j sid roomId =
        (setRoom rooms roomId [sid], some roomId,
          [(sid, SMsg.roomRole true false)]) ∧
      (roomJoin rooms j sid roomId).1.lookup roomId = some [sid] ∧
      ∀ x ∈ (roomJoin rooms j sid roomId).2.2, x.2 ≠ SMsg.peerReady) := by
  constructor
  · intro u w h _
    simp [roomJoin, getOrCreateRoom, h]
  · intro h
    refine ⟨?_, ?_, ?_⟩
    · simp [roomJoin, getOrCreateRoom, h, setAdd]
    · simp only [roomJoin, getOrCreateRoom, h, setAdd]
      simpa using lookup_setRoom_self rooms roomId [sid] h
    · simp [roomJoin, getOrCreateRoom, h, setAdd]

/-- Witness for C10: rejoin into a full room and into a sole-member room. -/
theorem rejoin_idempotent_witness :
    (([("r1", ["a", "b"])] : Rooms).lookup "r1" = some ["a", "b"] ∧
      "a" ∈ ["a", "b"] ∧
      roomJoin [("r1", ["a", "b"])] (some "r1") "a" "r1" =
        ([("r1", ["a", "b"])], some "r1", [("a", SMsg.roomFull)])) ∧
    (([("r1", ["a"])] : Rooms).lookup "r1" = some ["a"] ∧
      roomJoin [("r1", ["a"])] (some "r1") "a" "r1" =
        (setRoom [("r1", ["a"])] "r1" ["a"], some "r1",
          [("a", SMsg.roomRole true false)])) :=
  ⟨⟨rfl, by decide,
    (rejoin_idempotent [("r1", ["a", "b"])] "r1" "a" (some "r1")).1 "a" "b"
      rfl (by decide)⟩,
   ⟨rfl,
    ((rejoin_idempotent [("r1", ["a"])] "r1" "a" (some "r1")).2 rfl).1⟩⟩

/-- C4: a disconnect of a room member removes it from the room; an emptied
room is deleted from the map; otherwise exactly one peer:left goes to each
remaining member; and a join into the same room id after full departure
restarts role assignment at initiator true. -/
theorem disconnect_behavior (rooms : Rooms) (r sid : String)
    (members : List String) (h : rooms.lookup r = some members)
    (hmem : sid ∈ members) (hnd : members.Nodup) :
    sid ∉ members.erase sid ∧
    (members.erase sid = [] →
      onDisconnect rooms (some r) sid = (removeRoom rooms r, []) ∧
      (removeRoom rooms r).lookup r = none) ∧
    (members.erase sid ≠ [] →
      onDisconnect rooms (some r) sid =
        (setRoom rooms r (members.erase sid),
          (members.erase sid).map fun m => (m, SMsg.peerLeft)) ∧
      (setRoom rooms r (members.erase sid)).lookup r =
        some (members.erase sid) ∧
      ∀ m ∈ members.erase sid,
        (((members.erase sid).map fun x => (x, SMsg.peerLeft)).count
          (m, SMsg.peerLeft)) = 1) ∧
    (∀ rooms2 : Rooms, ∀ d : String, rooms2.lookup r = none →
      (roomJoin rooms2 none d r).2.2 = [(d, SMsg.roomRole true false)]) := by
  refine ⟨?_, ?_, ?_, ?_⟩
  · have h1 : members.count sid = 1 := List.count_eq_one_of_mem hnd hmem
    have h2 := List.count_erase_self sid members
    rw [← List.count_pos_iff]
    omega
  · intro he
    refine ⟨?_, lookup_removeRoom rooms r⟩
    simp [onDisconnect, h, he]
  · intro hne
    have hlen : ¬ (members.erase sid).length = 0 := by
      intro hl
      exact hne (List.length_eq_zero.mp hl)
    refine ⟨?_, lookup_setRoom_self rooms r _ h, ?_⟩
    · simp [onDisconnect, h, hlen]
    · intro m hm
      exact count_pair_map_of_nodup _ _ _ (hnd.erase sid) hm
  · intro rooms2 d h2
    simp [roomJoin, getOrCreateRoom, h2, setAdd]

/-- Witness for C4: departure from a two-member room and from a sole-member
room, then a fresh rejoin. -/
theorem disconnect_behavior_witness :
    (([("r1", ["a", "b"])] : Rooms).lookup "r1" = some ["a", "b"] ∧
      "a" ∈ ["a", "b"] ∧ (["a", "b"] : List String).Nodup ∧
      (["a", "b"] : List String).erase "a" ≠ [] ∧
      onDisconnect [("r1", ["a", "b"])] (some "r1") "a" =
        (setRoom [("r1", ["a", "b"])] "r1" ["b"],
          [("b", SMsg.peerLeft)])) ∧
    (([("r1", ["a"])] : Rooms).lookup "r1" = some ["a"] ∧
      (["a"] : List String).erase "a" = [] ∧
      onDisconnect [("r1", ["a"])] (some "r1") "a" =
        (removeRoom [("r1", ["a"])] "r1", []) ∧
      (removeRoom [("r1", ["a"])] "r1").lookup "r1" = none) :=
  ⟨⟨rfl, by decide, by decide, by decide,
    by
      have := ((disconnect_behavior [("r1", ["a", "b"])] "r1" "a" ["a", "b"]
        rfl (by decide) (by decide)).2.2.1 (by decide)).1
      simpa using this⟩,
   ⟨rfl, by decide,
    ((disconnect_behavior [("r1", ["a"])] "r1" "a" ["a"]
      rfl (by decide) (by decide)).2.1 (by decide)).1,
    ((disconnect_behavior [("r1", ["a"])] "r1" "a" ["a"]
      rfl (by decide) (by decide)).2.1 (by decide)).2⟩⟩

/-! ### Negotiation lemmas -/

lemma ensureLocalStream_cases (s : Session) :
    (ensureLocalStream s).2 = [] ∨
    (ensureLocalStream s).2 = [Action.getUserMedia, Action.addTrack] := by
  unfold ensureLocalStream
  split
  · exact Or.inl rfl
  · split
    · exact Or.inl rfl
    · exact Or.inr rfl

lemma ensureLocalStream_state (s : Session) :
    (ensureLocalStream s).1 = s ∨
    (ensureLocalStream s).1 = { s with hasLocalStream := true } := by
  unfold ensureLocalStream
  split
  · exact Or.inl rfl
  · split
    · exact Or.inl rfl
    · exact Or.inr rfl

lemma ensureLocalStream_hasLocal (s : Session) (h1 : s.isClosed = false)
    (h2 : s.enableMedia = true) :
    (ensureLocalStream s).1.hasLocalStream = true := by
  unfold ensureLocalStream
  split
  · rename_i hc
    simpa [h1] using hc
  · split
    · rename_i hc
      rw [h2] at hc
      exact absurd hc (by decide)
    · rfl

lemma onOffer_ignored (s : Session) (p : Bool)
    (hcol : (!p && (s.makingOffer || s.sigState != SigState.stable)) = true) :
    onOffer s p = ({ s with polite := p, ignoreOffer := true }, []) := by
  unfold onOffer
  simp [hcol]

lemma onOffer_accepted (s : Session) (p : Bool)
    (hcol : (!p && (s.makingOffer || s.sigState != SigState.stable)) = false) :
    onOffer s p =
      ({ (ensureLocalStream (afterRemote s p)).1 with
          sigState := SigState.stable },
        Action.setRemoteDesc :: (ensureLocalStream (afterRemote s p)).2 ++
          [Action.createAnswer, Action.setLocalDesc, Action.sendAnswer]) := by
  unfold onOffer afterRemote
  simp [hcol]

lemma onOffer_answer_count (s : Session) (p : Bool)
    (hcol : (!p && (s.makingOffer || s.sigState != SigState.stable)) = false) :
    (onOffer s p).2.count Action.sendAnswer = 1 := by
  rw [onOffer_accepted s p hcol]
  rcases ensureLocalStream_cases (afterRemote s p) with h | h <;>
    rw [h] <;> rfl

/-- C1: an incoming offer is ignored (state otherwise untouched, no remote
description, no answer, ignoreOffer true) precisely when the session is not
polite and a collision exists (makingOffer or non-stable signaling state);
otherwise the remote description is applied, local media is ensured, and
exactly one answer is sent — so of two colliding offers between a polite
and a non-polite member only the non-polite member offer survives. -/
theorem offer_glare_resolution (s : Session) (p : Bool) :
    ((onOffer s p).1.ignoreOffer =
      (!p && (s.makingOffer || s.sigState != SigState.stable))) ∧
    ((!p && (s.makingOffer || s.sigState != SigState.stable)) = true →
      onOffer s p = ({ s with polite := p, ignoreOffer := true }, [])) ∧
    ((!p && (s.makingOffer || s.sigState != SigState.stable)) = false →
      ((onOffer s p).2.count Action.sendAnswer = 1 ∧
       Action.setRemoteDesc ∈ (onOffer s p).2 ∧
       (s.isClosed = false → s.enableMedia = true →
         (onOffer s p).1.hasLocalStream = true))) ∧
    (∀ sp snp : Session,
      (sp.makingOffer || sp.sigState != SigState.stable) = true →
      (snp.makingOffer || snp.sigState != SigState.stable) = true →
      ((onOffer sp true).2.count Action.sendAnswer = 1 ∧
       (onOffer snp false).2 = [])) := by
  refine ⟨?_, fun h => onOffer_ignored s p h, fun h => ⟨onOffer_answer_count s p h, ?_, ?_⟩, ?_⟩
  · by_cases hcol : (!p && (s.makingOffer || s.sigState != SigState.stable)) = true
    · rw [onOffer_ignored s p hcol, hcol]
    · have hcol2 : (!p && (s.makingOffer || s.sigState != SigState.stable)) = false := by
        revert hcol
        cases (!p && (s.makingOffer || s.sigState != SigState.stable)) <;> simp
      rw [onOffer_accepted s p hcol2, hcol2]
      rcases ensureLocalStream_state (afterRemote s p) with hst | hst <;>
        rw [hst] <;> rfl
  · rw [onOffer_accepted s p (by assumption)]
    exact List.mem_cons_self _ _
  · intro hcl hem
    rw [onOffer_accepted s p (by assumption)]
    exact ensureLocalStream_hasLocal _ (by simpa using hcl) (by simpa using hem)
  · intro sp snp h1 h2
    refine ⟨onOffer_answer_count sp true (by simp), ?_⟩
    rw [onOffer_ignored snp false (by simp [h2])]

/-- Witness for C1: a colliding polite session answers once; a colliding
non-polite session drops the offer. -/
theorem offer_glare_resolution_witness :
    (((⟨true, false, false, true, false, true, true, SigState.haveLocalOffer,
        none⟩ : Session).makingOffer ||
      (⟨true, false, false, true, false, true, true, SigState.haveLocalOffer,
        none⟩ : Session).sigState != SigState.stable) = true) ∧
    ((onOffer ⟨true, false, false, true, false, true, true,
        SigState.haveLocalOffer, none⟩ true).2.count Action.sendAnswer = 1 ∧
      (onOffer ⟨true, false, false, true, false, true, true,
        SigState.haveLocalOffer, none⟩ false).2 = []) :=
  ⟨by decide,
    (offer_glare_resolution ⟨true, false, false, true, false, true, true,
        SigState.haveLocalOffer, none⟩ true).2.2.2
      ⟨true, false, false, true, false, true, true, SigState.haveLocalOffer,
        none⟩
      ⟨true, false, false, true, false, true, true, SigState.haveLocalOffer,
        none⟩
      (by decide) (by decide)⟩

/-- C5 counterexample: a session that close() has already marked closed
still processes a delivered offer in full: the signal:offer handler has no
closed-flag check, so it mutates the polite flag and sends an answer on the
relay link after close. -/
theorem closed_offer_still_answers :
    (⟨false, false, false, false, true, true, true, SigState.stable,
        none⟩ : Session).isClosed = true ∧
    (⟨false, false, false, false, true, true, true, SigState.stable,
        none⟩ : Session).polite = false ∧
    (onOffer ⟨false, false, false, false, true, true, true, SigState.stable,
        none⟩ true).1.polite = true ∧
    Action.sendAnswer ∈
      (onOffer ⟨false, false, false, false, true, true, true, SigState.stable,
        none⟩ true).2 := by
  decide

/-- C5 amended: the offer-production and media-acquisition continuations do
check the closed flag: on a closed session negotiate sends nothing and
performs no mutation beyond clearing makingOffer in its finally clause, and
ensureLocalStream is a complete no-op; the incoming signaling handlers have
no such check. -/
theorem closed_negotiate_noop (s : Session) (h : s.isClosed = true) :
    negotiate s = ({ s with makingOffer := false }, []) ∧
    ensureLocalStream s = (s, []) := by
  constructor
  · unfold negotiate
    simp [h]
  · unfold ensureLocalStream
    simp [h]

/-- Witness for the amended C5 on a concrete closed session. -/
theorem closed_negotiate_noop_witness :
    (⟨true, false, false, true, true, false, true, SigState.stable,
        none⟩ : Session).isClosed = true ∧
    negotiate ⟨true, false, false, true, true, false, true, SigState.stable,
        none⟩ =
      ({ (⟨true, false, false, true, true, false, true, SigState.stable,
          none⟩ : Session) with makingOffer := false }, []) ∧
    ensureLocalStream ⟨true, false, false, true, true, false, true,
        SigState.stable, none⟩ =
      (⟨true, false, false, true, true, false, true, SigState.stable,
        none⟩, []) :=
  ⟨rfl,
    (closed_negotiate_noop ⟨true, false, false, true, true, false, true,
      SigState.stable, none⟩ rfl).1,
    (closed_negotiate_noop ⟨true, false, false, true, true, false, true,
      SigState.stable, none⟩ rfl).2⟩

/-- C6: sendData never throws and returns success exactly when an open data
channel exists, sending the frame on it; on failure an initiator session
that is not closed recreates an absent or terminally closed channel and
fires renegotiation before reporting the failure; a non-initiator or closed
session never creates a channel. -/
theorem sendData_contract (s : Session) :
    ((sendData s).2.1 = true ↔ s.dataChannel = some DCState.dcOpen) ∧
    (s.dataChannel = some DCState.dcOpen →
      sendData s = (s, true, [Action.dcSend])) ∧
    (s.isClosed = false → s.initiator = true →
      (s.dataChannel = none ∨ s.dataChannel = some DCState.dcClosed) →
      sendData s = ({ s with dataChannel := some DCState.connecting }, false,
        [Action.createDataChannel, Action.negotiateTriggered])) ∧
    ((s.isClosed = true ∨ s.initiator = false) →
      Action.createDataChannel ∉ (sendData s).2.2 ∧ (sendData s).1 = s) ∧
    (s.initiator = true → s.isClosed = false → s.dataChannel ≠ none →
      s.dataChannel ≠ some DCState.dcOpen →
      s.dataChannel ≠ some DCState.dcClosed →
      sendData s = (s, false, [])) := by
  obtain ⟨mo, ig, po, ini, cl, hls, em, ss, dc⟩ := s
  rcases dc with _ | d
  · cases ini <;> cases cl <;> simp [sendData]
  · cases d <;> cases ini <;> cases cl <;> simp [sendData]

/-- Witness for C6: a failed send on an initiator session with no channel
recreates and renegotiates; a send on an open channel succeeds. -/
theorem sendData_contract_witness :
    ((⟨false, false, false, true, false, false, true, SigState.stable,
        none⟩ : Session).isClosed = false ∧
      (⟨false, false, false, true, false, false, true, SigState.stable,
        none⟩ : Session).initiator = true ∧
      sendData ⟨false, false, false, true, false, false, true, SigState.stable,
        none⟩ =
        ({ (⟨false, false, false, true, false, false, true, SigState.stable,
            none⟩ : Session) with dataChannel := some DCState.connecting },
          false, [Action.createDataChannel, Action.negotiateTriggered])) ∧
    sendData ⟨false, false, false, true, false, false, true, SigState.stable,
        some DCState.dcOpen⟩ =
      (⟨false, false, false, true, false, false, true, SigState.stable,
        some DCState.dcOpen⟩, true, [Action.dcSend]) :=
  ⟨⟨rfl, rfl,
    (sendData_contract ⟨false, false, false, true, false, false, true,
      SigState.stable, none⟩).2.2.1 rfl rfl (Or.inl rfl)⟩,
    (sendData_contract ⟨false, false, false, true, false, false, true,
      SigState.stable, some DCState.dcOpen⟩).2.1 rfl⟩

/-- C7: an incoming answer is applied as the remote description exactly
when the local signaling state is have-local-offer; in any other state it
is dropped and the session is unchanged. -/
theorem answer_applied_iff_pending (s : Session) :
    (s.sigState = SigState.haveLocalOffer →
      onAnswer s = ({ s with sigState := SigState.stable },
        [Action.setRemoteDesc])) ∧
    (s.sigState ≠ SigState.haveLocalOffer → onAnswer s = (s, [])) := by
  constructor <;> intro h <;> simp [onAnswer, h]

/-- Witness for C7: an answer applied while an offer is pending and dropped
while stable. -/
theorem answer_applied_iff_pending_witness :
    (⟨false, false, false, true, false, false, true, SigState.haveLocalOffer,
        none⟩ : Session).sigState = SigState.haveLocalOffer ∧
    onAnswer ⟨false, false, false, true, false, false, true,
        SigState.haveLocalOffer, none⟩ =
      ({ (⟨false, false, false, true, false, false, true,
          SigState.haveLocalOffer, none⟩ : Session) with
          sigState := SigState.stable }, [Action.setRemoteDesc]) ∧
    onAnswer ⟨false, false, false, true, false, false, true, SigState.stable,
        none⟩ =
      (⟨false, false, false, true, false, false, true, SigState.stable,
        none⟩, []) :=
  ⟨rfl,
    (answer_applied_iff_pending ⟨false, false, false, true, false, false,
      true, SigState.haveLocalOffer, none⟩).1 rfl,
    (answer_applied_iff_pending ⟨false, false, false, true, false, false,
      true, SigState.stable, none⟩).2 (by decide)⟩

/-- C8: an incoming candidate is always attempted on the connection, the
session state is untouched, and a failure of the add is re-thrown exactly
when ignoreOffer is false (it is swallowed while the most recent offer was
ignored). -/
theorem candidate_failure_policy (s : Session) (addOk : Bool) :
    (onCandidate s addOk).1 = s ∧
    Action.addIceCandidate ∈ (onCandidate s addOk).2.1 ∧
    (onCandidate s addOk).2.2 = (!addOk && !s.ignoreOffer) := by
  unfold onCandidate
  cases addOk <;> cases hig : s.ignoreOffer <;> simp [hig]

/-- Witness for C9 at a concrete frame. -/
theorem frame_codec_roundtrip_witness :
    ((7 : ℕ) < 2 ^ 32 ∧ (-1 : ℚ) ≤ 1 / 2 ∧ (1 / 2 : ℚ) ≤ 1 ∧
      (-1 : ℚ) ≤ -1 / 3 ∧ (-1 / 3 : ℚ) ≤ 1) ∧
    ((∀ (q r : ℕ) (a b : ℚ) (c d : ℕ),
      (packFrameBE q r a b c d).length = PKT_SIZE) ∧
    (∀ v : ℚ, -1000 ≤ toI16_1000 v ∧ toI16_1000 v ≤ 1000) ∧
    ∃ fr : Frame,
      decodeFrameBE (packFrameBE 7 5 (1 / 2) (-1 / 3) 70000 300) = some fr ∧
      fr.seq = 7 ∧ fr.buttons = 70000 % 2 ^ 16 ∧ fr.flags = 300 % 2 ^ 8 ∧
      |(1 / 2 : ℚ) - fr.throttle| ≤ 1 / 1000 ∧
      |(-1 / 3 : ℚ) - fr.steering| ≤ 1 / 1000) :=
  ⟨⟨by norm_num, by norm_num, by norm_num, by norm_num, by norm_num⟩,
    frame_codec_roundtrip 7 5 70000 300 (1 / 2) (-1 / 3)
      (by norm_num) (by norm_num) (by norm_num) (by norm_num) (by norm_num)⟩

end PiControlCar

